import Mathlib

/-!
Shallow embedding of the annotation scene engine of PopShot
(src/src/annotate/AnnotatePage.tsx): the undo/redo history, the crop
pipeline with fractional remapping, the clear operation, and the
pixelation compositor.  Geometry is modelled over the rationals
(JavaScript numbers, with exact arithmetic); canvas pixel grids are
modelled over the naturals.
-/

namespace PopShot

/-- Encoded bitmap content of a background image.  A data URL produced by
cropping is a distinct string from the one it was cropped out of, which is
modelled by the constructor structure: cropping wraps the parent content. -/
inductive ImgData where
  | orig (id : Nat)
  | cropOf (parent : ImgData) (sx sy sw sh : ℚ)
deriving DecidableEq

/-- Number of crop layers around the original capture. -/
def ImgData.depth : ImgData → Nat
  | .orig _ => 0
  | .cropOf p _ _ _ _ => p.depth + 1

/-- A background raster: its encoded content together with its native pixel
width and height (the state held behind imageDataUrl plus the decoded image
element). -/
structure Img where
  data : ImgData
  w : ℚ
  h : ℚ
deriving DecidableEq

/-- One fabric object on the canvas, as serialized by toObject/toJSON.
Geometry lives in canvas space.  Fields that no operation of the engine
reads or writes (variant tag, colors, stroke width, point lists, text) are
folded into the opaque payload, which every operation carries unchanged. -/
structure FabObj where
  left : ℚ
  top : ℚ
  scaleX : ℚ
  scaleY : ℚ
  width : ℚ
  height : ℚ
  payload : Nat
deriving DecidableEq

instance : Inhabited FabObj := ⟨⟨0, 0, 0, 0, 0, 0, 0⟩⟩

/-- A serialized object as held in pendingObjectsRef: the base fields plus
the optional custom fields written by handleApplyCrop
(objData.\_relativeLeft, objData.\_relativeTop, objData.\_oldBgScale).
Objects parsed back out of a history entry carry none of the custom
fields. -/
structure StoredObj where
  obj : FabObj
  relLeft : Option ℚ
  relTop : Option ℚ
  oldBgScale : Option ℚ
deriving DecidableEq

/-- An object reparsed from history JSON: no custom crop fields. -/
def plainStored (o : FabObj) : StoredObj := ⟨o, none, none, none⟩

/-- One history entry, as pushed by saveHistory: the canvas JSON string
paired with the imageDataUrl active when the snapshot was taken.
canvasJson = none models a malformed string on which JSON.parse throws. -/
structure HistoryEntry where
  canvasJson : Option (List FabObj)
  imageDataUrl : Img
deriving DecidableEq

instance : Inhabited HistoryEntry := ⟨⟨none, ⟨.orig 0, 0, 0⟩⟩⟩

/-- The pending crop rectangle (cropRegion state), in canvas space. -/
structure CropRect where
  x : ℚ
  y : ℚ
  width : ℚ
  height : ℚ
deriving DecidableEq

/-- The mutable state of the annotation page relevant to the scene engine:
the active raster, the live canvas object list, the background layout refs,
the history array with its cursor, and the refs that carry a crop or a
cross-raster undo across the canvas recreation. -/
structure EngineState where
  imageDataUrl : Img
  canvasObjects : List FabObj
  bgScale : ℚ
  bgOffsetX : ℚ
  bgOffsetY : ℚ
  canvasW : ℚ
  canvasH : ℚ
  history : List HistoryEntry
  historyIndex : Nat
  isRestoring : Bool
  pendingObjects : Option (List StoredObj)
  pendingCropInfo : Option (ℚ × ℚ)
  cropRegion : Option CropRect
  isCropping : Bool
deriving DecidableEq

/-- Result of laying out a raster inside the canvas container: the chain of
the container-fit effect (baseScale, canvasSize with Math.floor) and the
canvas-init effect (scale, centering offsets), at zoom 100. -/
structure Layout where
  canvasW : ℚ
  canvasH : ℚ
  scale : ℚ
  offX : ℚ
  offY : ℚ

/-- Display layout of an image in a container of inner size cw × ch. -/
def layout (cw ch : ℚ) (img : Img) : Layout :=
  let base := min (min (cw / img.w) (ch / img.h)) 1
  let cW : ℚ := ((⌊img.w * base⌋ : ℤ) : ℚ)
  let cH : ℚ := ((⌊img.h * base⌋ : ℤ) : ℚ)
  let s := min (cW / img.w) (cH / img.h)
  { canvasW := cW, canvasH := cH, scale := s,
    offX := (cW - img.w * s) / 2, offY := (cH - img.h * s) / 2 }

/-- saveHistory: no-op while restoring from history; otherwise truncate the
redo tail at the cursor, push a snapshot of the live canvas with the active
imageDataUrl, and move the cursor to the new tail. -/
def saveHistory (s : EngineState) : EngineState :=
  if s.isRestoring then s
  else
    let hist := s.history.take (s.historyIndex + 1) ++
      [⟨some s.canvasObjects, s.imageDataUrl⟩]
    { s with history := hist, historyIndex := hist.length - 1 }

/-- A committed mutation on the current background raster: the object list
is replaced (draw commit, text commit, delete, clear all end this way) and
saveHistory records the result.  The raster is untouched. -/
def commitMut (objs : List FabObj) (s : EngineState) : EngineState :=
  saveHistory { s with canvasObjects := objs }

/-- A full drawing gesture for a non-crop tool: handleMouseDown adds the
provisional shape, handleMouseMove sizes it, handleMouseUp marks it
selectable and calls saveHistory.  handleMouseUp performs no minimum-size
check on the shape. -/
def drawGesture (shape : FabObj) (s : EngineState) : EngineState :=
  saveHistory { s with canvasObjects := s.canvasObjects ++ [shape] }

/-- handleUndo.  The cursor is decremented first; if the target entry holds
a different imageDataUrl the restore is deferred through pendingObjectsRef
and the raster swap, otherwise the entry JSON is loaded directly.  A
malformed canvasJson (JSON.parse throws) leaves the function after the
cursor moved: in the cross-raster branch the restoring flag was already
set, in the same-raster branch nothing but the cursor changed. -/
def handleUndo (s : EngineState) : EngineState :=
  if 0 < s.historyIndex then
    let i := s.historyIndex - 1
    let e := s.history.getD i default
    if e.imageDataUrl ≠ s.imageDataUrl then
      match e.canvasJson with
      | none => { s with historyIndex := i, isRestoring := true }
      | some objs =>
        { s with historyIndex := i, isRestoring := true,
                 pendingObjects := some (objs.map plainStored),
                 imageDataUrl := e.imageDataUrl }
    else
      match e.canvasJson with
      | none => { s with historyIndex := i }
      | some objs => { s with historyIndex := i, canvasObjects := objs }
  else s

/-- handleRedo, symmetric to handleUndo. -/
def handleRedo (s : EngineState) : EngineState :=
  if s.historyIndex + 1 < s.history.length then
    let i := s.historyIndex + 1
    let e := s.history.getD i default
    if e.imageDataUrl ≠ s.imageDataUrl then
      match e.canvasJson with
      | none => { s with historyIndex := i, isRestoring := true }
      | some objs =>
        { s with historyIndex := i, isRestoring := true,
                 pendingObjects := some (objs.map plainStored),
                 imageDataUrl := e.imageDataUrl }
    else
      match e.canvasJson with
      | none => { s with historyIndex := i }
      | some objs => { s with historyIndex := i, canvasObjects := objs }
  else s

/-- The remap applied to one pending object when the recreated canvas
finishes loading its background: only when crop info and all three custom
fields are present (and \_oldBgScale is truthy, that is nonzero) is the
fractional position re-expanded into the new background extent and the
scale multiplied by the display-scale ratio; otherwise the object is added
as stored. -/
def restoreObj (cropInfo : Option (ℚ × ℚ)) (L : Layout) (so : StoredObj) :
    FabObj :=
  match cropInfo, so.relLeft, so.relTop, so.oldBgScale with
  | some _, some rl, some rt, some oldS =>
    if oldS ≠ 0 then
      let newBgW := L.canvasW - L.offX * 2
      let newBgH := L.canvasH - L.offY * 2
      let ratio := L.scale / oldS
      { so.obj with
        left := rl * newBgW + L.offX,
        top := rt * newBgH + L.offY,
        scaleX := so.obj.scaleX * ratio,
        scaleY := so.obj.scaleY * ratio }
    else so.obj
  | _, _, _, _ => so.obj

/-- The canvas-initialization effect that runs after imageDataUrl changes:
a fresh canvas is created, the background laid out (updating the scale and
offset refs), and then either the pending objects are restored (clearing
the pending refs and attempting a saveHistory, which is a no-op while the
restoring flag is set) or, with nothing pending, a saveHistory is attempted
unless restoring, and the restoring flag is cleared. -/
def canvasReinit (cw ch : ℚ) (s : EngineState) : EngineState :=
  let L := layout cw ch s.imageDataUrl
  let s1 := { s with canvasW := L.canvasW, canvasH := L.canvasH,
                     bgScale := L.scale, bgOffsetX := L.offX,
                     bgOffsetY := L.offY, canvasObjects := [] }
  match s.pendingObjects with
  | some (o :: rest) =>
    saveHistory { s1 with
      canvasObjects := (o :: rest).map (restoreObj s.pendingCropInfo L),
      pendingObjects := none, pendingCropInfo := none }
  | _ =>
    if s1.isRestoring then { s1 with isRestoring := false }
    else saveHistory s1

/-- The cropped background raster: the crop region is converted from canvas
space to native pixel space through the display scale and offset, and that
pixel rectangle is extracted at native resolution (the crop canvas
dimensions truncate to integers when assigned). -/
def croppedImg (img : Img) (scale offX offY : ℚ) (r : CropRect) : Img :=
  let srcX := (r.x - offX) / scale
  let srcY := (r.y - offY) / scale
  let srcW := r.width / scale
  let srcH := r.height / scale
  { data := .cropOf img.data srcX srcY srcW srcH,
    w := ((⌊srcW⌋ : ℤ) : ℚ), h := ((⌊srcH⌋ : ℤ) : ℚ) }

/-- handleApplyCrop: a region under 10 canvas units on either axis only
discards the pending rectangle; otherwise the background is cropped, the
pre-crop scene is snapshotted, every object is serialized with its position
relative to the crop origin and as a fraction of the crop extent, and the
raster swap is initiated (the canvas-init effect completes it). -/
def handleApplyCrop (s : EngineState) : EngineState :=
  match s.cropRegion with
  | none => s
  | some r =>
    if r.width < 10 ∨ r.height < 10 then
      { s with cropRegion := none, isCropping := false }
    else
      let cropped := croppedImg s.imageDataUrl s.bgScale s.bgOffsetX
        s.bgOffsetY r
      let s1 := saveHistory s
      let adjusted := s.canvasObjects.map (fun o =>
        { obj := { o with left := o.left - r.x, top := o.top - r.y },
          relLeft := some ((o.left - r.x) / r.width),
          relTop := some ((o.top - r.y) / r.height),
          oldBgScale := some s.bgScale })
      { s1 with pendingObjects := some adjusted,
                pendingCropInfo := some (r.width, r.height),
                imageDataUrl := cropped,
                cropRegion := none, isCropping := false }

/-- handleClear: saves the background, clears the canvas, reattaches the
background, and records one history snapshot. -/
def handleClear (s : EngineState) : EngineState :=
  saveHistory { s with canvasObjects := [] }

/-- n undo steps. -/
def undoN : Nat → EngineState → EngineState
  | 0, s => s
  | n + 1, s => handleUndo (undoN n s)

/-- n redo steps. -/
def redoN : Nat → EngineState → EngineState
  | 0, s => s
  | n + 1, s => handleRedo (redoN n s)

/-- A sequence of committed mutations, run left to right. -/
def runCommits : List (List FabObj) → EngineState → EngineState
  | [], s => s
  | m :: rest, s => runCommits rest (commitMut m s)

/-!
Pixelation compositor (pixelateFromBackground, updatePixelateZone).
Canvas pixel grids have integer dimensions (assignment to canvas width
truncates), so region width and height are naturals here; pixel intensities
are rationals (one channel, the other channels behaving identically).
-/

/-- smallW and smallH of the low-resolution canvas:
Math.max(1, Math.ceil(dim / pixelSize)) with pixelSize fixed at 10. -/
def smallDim (n : Nat) : Nat := max 1 ((n + 9) / 10)

/-- Index of the low-resolution source pixel that nearest-neighbor
upsampling assigns to destination pixel x when stretching a row of small
pixels back over n destination pixels. -/
def blockIdx (n small x : Nat) : Nat := x * small / n

/-- Destination pixels of one row that fall inside block i. -/
def blockCells (n small i : Nat) : List Nat :=
  (List.range n).filter (fun x => blockIdx n small x = i)

/-- Arithmetic mean of a list of intensities. -/
def listAvg (l : List ℚ) : ℚ := l.sum / l.length

/-- The pixel of the source region at destination coordinates (x, y) of
the temporary canvas: models the first drawImage call, which maps the
native-pixel rectangle (srcX, srcY, srcW, srcH) onto the w × h canvas, so
one destination step advances the source by 1 / scale. -/
def regionPix (bg : ℤ → ℤ → ℚ) (scale offX offY left top : ℚ)
    (x y : Nat) : ℚ :=
  bg ⌊(left - offX + x) / scale⌋ ⌊(top - offY + y) / scale⌋

/-- Intensity of low-resolution pixel (i, j): the averaging downsample of
the second drawImage call, modelled as the mean of the destination cells of
block (i, j). -/
def smallPixel (region : Nat → Nat → ℚ) (w h i j : Nat) : ℚ :=
  listAvg ((blockCells w (smallDim w) i).flatMap
    (fun x => (blockCells h (smallDim h) j).map (fun y => region x y)))

/-- The rendered pixelation patch: every destination pixel carries the
intensity of its block. -/
structure Patch where
  w : Nat
  h : Nat
  pix : Nat → Nat → ℚ

/-- pixelateFromBackground: null without a background image or when either
dimension is under 1; otherwise the zone is cropped out of the background
(regionPix), downscaled to smallDim × smallDim with averaging, and drawn
back at full size with image smoothing disabled (nearest neighbor). -/
def pixelateFromBackground (bg : Option (ℤ → ℤ → ℚ))
    (scale offX offY : ℚ) (left top : ℚ) (width height : Nat) :
    Option Patch :=
  match bg with
  | none => none
  | some img =>
    if width < 1 ∨ height < 1 then none
    else
      some { w := width, h := height,
             pix := fun x y =>
               smallPixel (regionPix img scale offX offY left top)
                 width height
                 (blockIdx width (smallDim width) x)
                 (blockIdx height (smallDim height) y) }

/-- A pixelate-zone object as handled by updatePixelateZone: its canvas
geometry (width and height already multiplied by the object scale) and the
pattern fill holding the last rendered patch. -/
structure PixZone where
  left : ℚ
  top : ℚ
  width : Nat
  height : Nat
  fill : Option Patch

/-- updatePixelateZone: recompute the pixelated patch for the current zone
geometry and install it as the fill; if pixelateFromBackground returns
null the zone is left untouched. -/
def updatePixelateZone (bg : Option (ℤ → ℤ → ℚ)) (scale offX offY : ℚ)
    (z : PixZone) : PixZone :=
  match pixelateFromBackground bg scale offX offY z.left z.top
      z.width z.height with
  | none => z
  | some p => { z with fill := some p }

/-- Move or resize a zone to the given geometry. -/
def setGeom (l t : ℚ) (w h : Nat) (z : PixZone) : PixZone :=
  { z with left := l, top := t, width := w, height := h }

/-- Refresh of the pixelate zone at position i of the object list, as done
by the object-modified handlers: only that object is touched. -/
def updateZoneAt (bg : Option (ℤ → ℤ → ℚ)) (scale offX offY : ℚ) :
    List PixZone → Nat → List PixZone
  | [], _ => []
  | z :: zs, 0 => updatePixelateZone bg scale offX offY z :: zs
  | z :: zs, i + 1 => z :: updateZoneAt bg scale offX offY zs i

/-!
Concrete fixtures used by witnesses and counterexamples: a 400 × 300
capture shown 1:1 in an 800 × 600 container, one committed arrow-like
object, and an initial state as produced by canvas initialization.
-/

/-- A 400 × 300 original capture. -/
def img0 : Img := ⟨.orig 0, 400, 300⟩

/-- A committed annotation object at canvas position (150, 150). -/
def o1 : FabObj := ⟨150, 150, 1, 1, 40, 30, 7⟩

/-- A zero-extent rectangle, as created by a click without a drag. -/
def degenRect : FabObj := ⟨100, 100, 1, 1, 0, 0, 2⟩

/-- Engine state right after the canvas loaded img0 at scale 1 and the
initial snapshot was recorded. -/
def s0 : EngineState :=
  { imageDataUrl := img0, canvasObjects := [], bgScale := 1,
    bgOffsetX := 0, bgOffsetY := 0, canvasW := 400, canvasH := 300,
    history := [⟨some [], img0⟩], historyIndex := 0, isRestoring := false,
    pendingObjects := none, pendingCropInfo := none,
    cropRegion := none, isCropping := false }

/-- A state whose undo target is a malformed history entry on the same
raster: the scene holds o1 and matches the tail entry. -/
def s6 : EngineState :=
  { s0 with history := [⟨none, img0⟩, ⟨some [o1], img0⟩],
            historyIndex := 1, canvasObjects := [o1] }

/-- A second capture, distinct from img0. -/
def img1 : Img := ⟨.orig 1, 400, 300⟩

/-- A state whose redo target is a malformed history entry referencing a
different raster (img1): the cursor sits on the entry matching the
rendered scene. -/
def s6r : EngineState :=
  { s0 with history := [⟨some [], img0⟩, ⟨none, img1⟩],
            historyIndex := 0 }

/-- A state ready to crop: one object committed, a pending 100 × 100 crop
rectangle at (50, 50). -/
def rect1 : CropRect := ⟨50, 50, 100, 100⟩

/-- State with o1 committed and rect1 pending, cursor at the tail. -/
def sCrop0 : EngineState :=
  { s0 with canvasObjects := [o1], cropRegion := some rect1,
            history := [⟨some [], img0⟩, ⟨some [o1], img0⟩],
            historyIndex := 1 }

/-- The serialized form handleApplyCrop gives one object: position shifted
to the crop origin, the fractional coordinates and the old display scale in
the custom fields. -/
def adjustStored (r : CropRect) (oldScale : ℚ) (o : FabObj) : StoredObj :=
  ⟨{ o with left := o.left - r.x, top := o.top - r.y },
    some ((o.left - r.x) / r.width),
    some ((o.top - r.y) / r.height),
    some oldScale⟩

/-- The scene contents after k of the committed mutations: the initial
object list for k = 0, the list installed by mutation k otherwise. -/
def objAt (objs0 : List FabObj) (muts : List (List FabObj)) : Nat → List FabObj
  | 0 => objs0
  | k + 1 => muts.getD k []

/-- The engine state reached after committing the mutation sequence and
then navigating the cursor to position k of the committed tail: the history
holds the truncated prefix plus one snapshot per mutation, and the scene
shows the contents at k. -/
def navState (s0 : EngineState) (muts : List (List FabObj)) (k : Nat) :
    EngineState :=
  { s0 with
    canvasObjects := objAt s0.canvasObjects muts k,
    history := s0.history.take (s0.historyIndex + 1) ++
      muts.map (fun mm => ⟨some mm, s0.imageDataUrl⟩),
    historyIndex := s0.historyIndex + k }

/-- Cropping never reproduces the parent data URL. -/
theorem ImgData.cropOf_ne (d : ImgData) (sx sy sw sh : ℚ) :
    ImgData.cropOf d sx sy sw sh ≠ d := by
  intro h
  have hd := congrArg ImgData.depth h
  simp [ImgData.depth] at hd

/-- Non-pixelate objects are untouched by a pixelate-zone refresh. -/
theorem updateZoneAt_frame (bg : Option (ℤ → ℤ → ℚ)) (sc ox oy : ℚ) :
    ∀ (objs : List PixZone) (i j : Nat), j ≠ i →
      (updateZoneAt bg sc ox oy objs i).get? j = objs.get? j := by
  intro objs
  induction objs with
  | nil => intro i j _; simp [updateZoneAt]
  | cons z zs ih =>
    intro i j hne
    cases i with
    | zero =>
      cases j with
      | zero => exact absurd rfl hne
      | succ j => simp [updateZoneAt]
    | succ i =>
      cases j with
      | zero => simp [updateZoneAt]
      | succ j =>
        simp only [updateZoneAt, List.get?_cons_succ]
        exact ih i j (by omega)

/-- C4: a crop region whose canvas-space width or height is below the
10-unit minimum is treated as a cancel: handleApplyCrop discards the
pending rectangle and changes nothing else — no history entry, no raster
replacement, no object geometry change, no error. -/
theorem crop_below_minimum_is_cancel (s : EngineState) (r : CropRect)
    (hr : s.cropRegion = some r) (hsmall : r.width < 10 ∨ r.height < 10) :
    handleApplyCrop s = { s with cropRegion := none, isCropping := false } := by
  simp [handleApplyCrop, hr, hsmall]

/-- Witness for C4 at a concrete 5 × 5 pending crop rectangle. -/
theorem crop_below_minimum_is_cancel_witness :
    handleApplyCrop { s0 with cropRegion := some ⟨0, 0, 5, 5⟩ } =
      { { s0 with cropRegion := some ⟨0, 0, 5, 5⟩ } with
        cropRegion := none, isCropping := false } :=
  crop_below_minimum_is_cancel _ ⟨0, 0, 5, 5⟩ rfl (Or.inl (by norm_num))

/-- C5 counterexample: a zero-extent rectangle gesture is not discarded on
pointer-up — the degenerate shape is committed to the scene and a history
snapshot is recorded, contradicting the claim that such gestures are
no-ops. -/
theorem degenerate_shape_committed_counterexample :
    (drawGesture degenRect s0).canvasObjects = [degenRect] ∧
    (drawGesture degenRect s0).history.length = s0.history.length + 1 := by
  decide

/-- C5 amended: only crop regions get a minimum-size check; a drawing
gesture of any extent, including a degenerate one, always commits on
pointer-up — the shape joins the scene and saveHistory records a new
snapshot. -/
theorem draw_gesture_always_commits (shape : FabObj) (s : EngineState)
    (hflag : s.isRestoring = false) :
    (drawGesture shape s).canvasObjects = s.canvasObjects ++ [shape] ∧
    (drawGesture shape s).history =
      s.history.take (s.historyIndex + 1) ++
        [⟨some (s.canvasObjects ++ [shape]), s.imageDataUrl⟩] := by
  simp [drawGesture, saveHistory, hflag]

/-- Witness for the amended C5 at the concrete degenerate rectangle. -/
theorem draw_gesture_always_commits_witness :
    (drawGesture degenRect s0).canvasObjects = s0.canvasObjects ++ [degenRect] ∧
    (drawGesture degenRect s0).history =
      s0.history.take (s0.historyIndex + 1) ++
        [⟨some (s0.canvasObjects ++ [degenRect]), s0.imageDataUrl⟩] :=
  draw_gesture_always_commits degenRect s0 rfl

/-- C6 counterexample: undoing onto a malformed history entry (same
raster) leaves the scene untouched but still moves the cursor, so the
cursor no longer points at an entry matching the rendered scene —
contradicting the claim that the step is refused with the cursor left in
place. -/
theorem undo_corrupt_entry_counterexample :
    (handleUndo s6).canvasObjects = s6.canvasObjects ∧
    (handleUndo s6).imageDataUrl = s6.imageDataUrl ∧
    (handleUndo s6).history = s6.history ∧
    (handleUndo s6).historyIndex = 0 ∧
    ((handleUndo s6).history.getD (handleUndo s6).historyIndex
        default).canvasJson ≠ some (handleUndo s6).canvasObjects := by
  decide

/-- C6 amended: when the target entry of undo or of redo fails to
reconstruct — whether it references the same raster or a different one —
the scene, the raster and the history list are left unchanged, but the
history cursor has already moved to the failed entry (the cursor moves
before JSON.parse in both handlers and in both raster branches), so the
cursor no longer points at the entry matching the rendered scene.  The
state s has a failing undo target, the independent state t a failing redo
target. -/
theorem undo_redo_corrupt_entry_moves_cursor_only
    (s t : EngineState)
    (h0 : 0 < s.historyIndex)
    (hc : (s.history.getD (s.historyIndex - 1) default).canvasJson = none)
    (h0r : t.historyIndex + 1 < t.history.length)
    (hcr : (t.history.getD (t.historyIndex + 1) default).canvasJson =
      none) :
    ((handleUndo s).canvasObjects = s.canvasObjects ∧
     (handleUndo s).imageDataUrl = s.imageDataUrl ∧
     (handleUndo s).history = s.history ∧
     (handleUndo s).historyIndex = s.historyIndex - 1) ∧
    ((handleRedo t).canvasObjects = t.canvasObjects ∧
     (handleRedo t).imageDataUrl = t.imageDataUrl ∧
     (handleRedo t).history = t.history ∧
     (handleRedo t).historyIndex = t.historyIndex + 1) := by
  constructor
  · simp only [List.getD_eq_getElem?_getD] at hc
    by_cases him : (s.history[s.historyIndex - 1]?.getD
        default).imageDataUrl = s.imageDataUrl
    · simp [handleUndo, h0, hc, him]
    · simp [handleUndo, h0, hc, him]
  · have hcr2 : (t.history[t.historyIndex + 1]).canvasJson = none := by
      rwa [List.getD_eq_getElem _ _ h0r] at hcr
    by_cases himr : (t.history[t.historyIndex + 1]).imageDataUrl =
      t.imageDataUrl
    · simp [handleRedo, h0r, hcr2, himr]
    · simp [handleRedo, h0r, hcr2, himr]

/-- Witness for the amended C6: undo at s6 (corrupt same-raster target)
and redo at s6r (corrupt cross-raster target). -/
theorem undo_redo_corrupt_entry_moves_cursor_only_witness :
    ((handleUndo s6).canvasObjects = s6.canvasObjects ∧
     (handleUndo s6).imageDataUrl = s6.imageDataUrl ∧
     (handleUndo s6).history = s6.history ∧
     (handleUndo s6).historyIndex = s6.historyIndex - 1) ∧
    ((handleRedo s6r).canvasObjects = s6r.canvasObjects ∧
     (handleRedo s6r).imageDataUrl = s6r.imageDataUrl ∧
     (handleRedo s6r).history = s6r.history ∧
     (handleRedo s6r).historyIndex = s6r.historyIndex + 1) :=
  undo_redo_corrupt_entry_moves_cursor_only s6 s6r (by decide) (by decide)
    (by decide) (by decide)

/-- C10: clearing removes every annotation object while leaving the active
raster, its display scale and its display offset unchanged, and appends
exactly one history snapshot of the cleared scene at the new cursor, so the
cleared state can be undone. -/
theorem clear_removes_objects_keeps_raster (s : EngineState)
    (hflag : s.isRestoring = false)
    (hidx : s.historyIndex < s.history.length) :
    (handleClear s).canvasObjects = [] ∧
    (handleClear s).imageDataUrl = s.imageDataUrl ∧
    (handleClear s).bgScale = s.bgScale ∧
    (handleClear s).bgOffsetX = s.bgOffsetX ∧
    (handleClear s).bgOffsetY = s.bgOffsetY ∧
    (handleClear s).history =
      s.history.take (s.historyIndex + 1) ++ [⟨some [], s.imageDataUrl⟩] ∧
    (handleClear s).historyIndex = s.historyIndex + 1 ∧
    0 < (handleClear s).historyIndex := by
  simp [handleClear, saveHistory, hflag, List.length_take]
  omega

/-- Witness for C10 at a state holding one object. -/
theorem clear_removes_objects_keeps_raster_witness :
    (handleClear { s0 with canvasObjects := [o1] }).canvasObjects = [] ∧
    (handleClear { s0 with canvasObjects := [o1] }).imageDataUrl =
      ({ s0 with canvasObjects := [o1] } : EngineState).imageDataUrl ∧
    (handleClear { s0 with canvasObjects := [o1] }).bgScale =
      ({ s0 with canvasObjects := [o1] } : EngineState).bgScale ∧
    (handleClear { s0 with canvasObjects := [o1] }).bgOffsetX =
      ({ s0 with canvasObjects := [o1] } : EngineState).bgOffsetX ∧
    (handleClear { s0 with canvasObjects := [o1] }).bgOffsetY =
      ({ s0 with canvasObjects := [o1] } : EngineState).bgOffsetY ∧
    (handleClear { s0 with canvasObjects := [o1] }).history =
      ({ s0 with canvasObjects := [o1] } : EngineState).history.take
        (({ s0 with canvasObjects := [o1] } : EngineState).historyIndex + 1) ++
        [⟨some [], ({ s0 with canvasObjects := [o1] } : EngineState).imageDataUrl⟩] ∧
    (handleClear { s0 with canvasObjects := [o1] }).historyIndex =
      ({ s0 with canvasObjects := [o1] } : EngineState).historyIndex + 1 ∧
    0 < (handleClear { s0 with canvasObjects := [o1] }).historyIndex :=
  clear_removes_objects_keeps_raster { s0 with canvasObjects := [o1] }
    rfl (by decide)

/-- C9: the pixelated patch is a pure function of the zone geometry and
the source raster — rendering after a resize and a resize back equals a
single rendering at that geometry — a refresh changes only the fill of the
zone, and a refresh of zone i leaves every other object untouched. -/
theorem pixelate_idempotent_and_frame (bg : ℤ → ℤ → ℚ) (sc ox oy : ℚ)
    (z : PixZone) (l' t' : ℚ) (w' h' : Nat)
    (hw : 1 ≤ z.width) (hh : 1 ≤ z.height) :
    (updatePixelateZone (some bg) sc ox oy
        (setGeom z.left z.top z.width z.height
          (updatePixelateZone (some bg) sc ox oy
            (setGeom l' t' w' h' z)))).fill
      = (updatePixelateZone (some bg) sc ox oy z).fill ∧
    (∀ y : PixZone, (updatePixelateZone (some bg) sc ox oy y).left = y.left ∧
       (updatePixelateZone (some bg) sc ox oy y).top = y.top ∧
       (updatePixelateZone (some bg) sc ox oy y).width = y.width ∧
       (updatePixelateZone (some bg) sc ox oy y).height = y.height) ∧
    (∀ (objs : List PixZone) (i j : Nat), j ≠ i →
       (updateZoneAt (some bg) sc ox oy objs i).get? j = objs.get? j) := by
  have hne : ¬(z.width = 0 ∨ z.height = 0) := by omega
  refine ⟨?_, ?_, updateZoneAt_frame _ _ _ _⟩
  · simp [updatePixelateZone, setGeom, pixelateFromBackground, hne]
  · intro y
    cases hp : pixelateFromBackground (some bg) sc ox oy y.left y.top
        y.width y.height with
    | none => simp [updatePixelateZone, hp]
    | some p => simp [updatePixelateZone, hp]

/-- Witness for C9 at a 15 × 15 zone over a constant background. -/
theorem pixelate_idempotent_and_frame_witness :
    (updatePixelateZone (some fun _ _ => 0) 1 0 0
        (setGeom (0 : ℚ) (0 : ℚ) 15 15
          (updatePixelateZone (some fun _ _ => 0) 1 0 0
            (setGeom (1 : ℚ) (1 : ℚ) 3 3 ⟨0, 0, 15, 15, none⟩)))).fill
      = (updatePixelateZone (some fun _ _ => 0) 1 0 0
          (⟨0, 0, 15, 15, none⟩ : PixZone)).fill ∧
    (∀ y : PixZone,
       (updatePixelateZone (some fun _ _ => 0) 1 0 0 y).left = y.left ∧
       (updatePixelateZone (some fun _ _ => 0) 1 0 0 y).top = y.top ∧
       (updatePixelateZone (some fun _ _ => 0) 1 0 0 y).width = y.width ∧
       (updatePixelateZone (some fun _ _ => 0) 1 0 0 y).height = y.height) ∧
    (∀ (objs : List PixZone) (i j : Nat), j ≠ i →
       (updateZoneAt (some fun _ _ => 0) 1 0 0 objs i).get? j =
         objs.get? j) :=
  pixelate_idempotent_and_frame (fun _ _ => 0) 1 0 0
    ⟨0, 0, 15, 15, none⟩ 1 1 3 3 (by decide) (by decide)

/-!
Block-grid facts about the pixelation pipeline.
-/

theorem smallDim_pos (n : Nat) : 0 < smallDim n := by simp [smallDim]

theorem smallDim_eq (n : Nat) (h : 1 ≤ n) : smallDim n = (n + 9) / 10 := by
  have h1 : 1 ≤ (n + 9) / 10 :=
    (Nat.one_le_div_iff (by norm_num)).mpr (by omega)
  simp [smallDim]
  omega

theorem smallDim_le (n : Nat) (h : 1 ≤ n) : smallDim n ≤ n := by
  rw [smallDim_eq n h]
  have h2 : (n + 9) / 10 < n + 1 := by
    rw [Nat.div_lt_iff_lt_mul (by norm_num)]
    omega
  omega

theorem blockIdx_lt (n small x : Nat) (hs : 0 < small) (hx : x < n) :
    blockIdx n small x < small := by
  have hn : 0 < n := by omega
  rw [blockIdx, Nat.div_lt_iff_lt_mul hn]
  calc x * small < n * small := (Nat.mul_lt_mul_right hs).mpr hx
    _ = small * n := Nat.mul_comm _ _

theorem blockIdx_surj (n small : Nat) (hs : 0 < small) (hsn : small ≤ n)
    (j : Nat) (hj : j < small) : ∃ x, x < n ∧ blockIdx n small x = j := by
  have hn : 0 < n := by omega
  refine ⟨(j * n + small - 1) / small, ?_, ?_⟩
  all_goals
    have hdm := Nat.div_add_mod (j * n + small - 1) small
    have hmlt : (j * n + small - 1) % small < small := Nat.mod_lt _ hs
    have hmul : (j + 1) * n ≤ small * n := Nat.mul_le_mul_right n hj
    rw [Nat.succ_mul] at hmul
  · have hlt : small * ((j * n + small - 1) / small) < small * n := by omega
    exact Nat.lt_of_mul_lt_mul_left hlt
  · rw [blockIdx]
    have g1 : j ≤ (j * n + small - 1) / small * small / n := by
      rw [Nat.le_div_iff_mul_le hn,
        Nat.mul_comm ((j * n + small - 1) / small) small]
      omega
    have g2 : (j * n + small - 1) / small * small / n < j + 1 := by
      rw [Nat.div_lt_iff_lt_mul hn, Nat.succ_mul,
        Nat.mul_comm ((j * n + small - 1) / small) small]
      omega
    omega

/-- C7: for a pixelate zone of width w and height h (both at least 1) the
patch exists, every destination pixel carries the averaged intensity of its
block (nearest-neighbor upsample of the averaging downsample, so blocks are
flat with no gradients), and the zone is partitioned into exactly
ceil(w / 10) × ceil(h / 10) blocks, block size being fixed at 10. -/
theorem pixelate_block_grid (img : ℤ → ℤ → ℚ)
    (scale offX offY left top : ℚ) (w h : Nat)
    (hw : 1 ≤ w) (hh : 1 ≤ h) :
    ∃ p, pixelateFromBackground (some img) scale offX offY left top w h =
        some p ∧
      (∀ x y, p.pix x y =
        smallPixel (regionPix img scale offX offY left top) w h
          (blockIdx w (smallDim w) x) (blockIdx h (smallDim h) y)) ∧
      (∀ x₁ y₁ x₂ y₂,
        blockIdx w (smallDim w) x₁ = blockIdx w (smallDim w) x₂ →
        blockIdx h (smallDim h) y₁ = blockIdx h (smallDim h) y₂ →
        p.pix x₁ y₁ = p.pix x₂ y₂) ∧
      ((Finset.range w ×ˢ Finset.range h).image
          (fun q => (blockIdx w (smallDim w) q.1,
                     blockIdx h (smallDim h) q.2))).card
        = ((w + 9) / 10) * ((h + 9) / 10) := by
  have hp : pixelateFromBackground (some img) scale offX offY left top w h =
      some ⟨w, h, fun x y =>
        smallPixel (regionPix img scale offX offY left top) w h
          (blockIdx w (smallDim w) x) (blockIdx h (smallDim h) y)⟩ := by
    have hne : ¬(w < 1 ∨ h < 1) := by omega
    simp [pixelateFromBackground, hne]
    omega
  refine ⟨_, hp, fun x y => rfl, ?_, ?_⟩
  · intro x₁ y₁ x₂ y₂ e1 e2
    show smallPixel _ w h _ _ = smallPixel _ w h _ _
    rw [e1, e2]
  · have h2 : (Finset.range w ×ˢ Finset.range h).image
        (fun q => (blockIdx w (smallDim w) q.1,
                   blockIdx h (smallDim h) q.2)) =
        Finset.range (smallDim w) ×ˢ Finset.range (smallDim h) := by
      ext ⟨a, b⟩
      simp only [Finset.mem_image, Finset.mem_product, Finset.mem_range,
        Prod.mk.injEq, Prod.exists]
      constructor
      · rintro ⟨x, y, ⟨hx, hy⟩, e1, e2⟩
        exact ⟨e1 ▸ blockIdx_lt w _ x (smallDim_pos w) hx,
               e2 ▸ blockIdx_lt h _ y (smallDim_pos h) hy⟩
      · rintro ⟨ha, hb⟩
        obtain ⟨x, hx, ex⟩ := blockIdx_surj w (smallDim w) (smallDim_pos w)
          (smallDim_le w hw) a ha
        obtain ⟨y, hy, ey⟩ := blockIdx_surj h (smallDim h) (smallDim_pos h)
          (smallDim_le h hh) b hb
        exact ⟨x, y, ⟨hx, hy⟩, ex, ey⟩
    rw [h2, Finset.card_product, Finset.card_range, Finset.card_range,
      smallDim_eq w hw, smallDim_eq h hh]

/-- Witness for C7 at a 15 × 15 zone: a 2 × 2 block grid. -/
theorem pixelate_block_grid_witness :
    ∃ p, pixelateFromBackground (some fun _ _ => (0 : ℚ)) 1 0 0 0 0 15 15 =
        some p ∧
      (∀ x y, p.pix x y =
        smallPixel (regionPix (fun _ _ => (0 : ℚ)) 1 0 0 0 0) 15 15
          (blockIdx 15 (smallDim 15) x) (blockIdx 15 (smallDim 15) y)) ∧
      (∀ x₁ y₁ x₂ y₂,
        blockIdx 15 (smallDim 15) x₁ = blockIdx 15 (smallDim 15) x₂ →
        blockIdx 15 (smallDim 15) y₁ = blockIdx 15 (smallDim 15) y₂ →
        p.pix x₁ y₁ = p.pix x₂ y₂) ∧
      ((Finset.range 15 ×ˢ Finset.range 15).image
          (fun q => (blockIdx 15 (smallDim 15) q.1,
                     blockIdx 15 (smallDim 15) q.2))).card
        = ((15 + 9) / 10) * ((15 + 9) / 10) :=
  pixelate_block_grid (fun _ _ => 0) 1 0 0 0 0 15 15 (by decide) (by decide)

/-- C8 counterexample: a pixelate zone of width 0 — a degenerate zone,
certainly under one block on that axis — produces no pixelation patch at
all: pixelateFromBackground returns none rather than a single averaged
block. -/
theorem pixelate_zero_width_counterexample :
    pixelateFromBackground (some fun _ _ => (0 : ℚ)) 1 0 0 0 0 0 5 =
      none := by
  simp [pixelateFromBackground]

/-- C8 amended: a zone of at least one canvas unit but under one block
(10 units) on both axes renders as a single averaged block — the small
grid is 1 × 1 and every pixel of the patch carries the block (0, 0)
average; a zone under one unit on either axis instead yields no patch. -/
theorem pixelate_small_zone_single_block (img : ℤ → ℤ → ℚ)
    (scale offX offY left top : ℚ) (w h : Nat)
    (hw1 : 1 ≤ w) (hw2 : w < 10) (hh1 : 1 ≤ h) (hh2 : h < 10) :
    ∃ p, pixelateFromBackground (some img) scale offX offY left top w h =
        some p ∧
      smallDim w = 1 ∧ smallDim h = 1 ∧
      ∀ x y, x < w → y < h →
        p.pix x y =
          smallPixel (regionPix img scale offX offY left top) w h 0 0 := by
  have hdw : smallDim w = 1 := by rw [smallDim_eq w hw1]; omega
  have hdh : smallDim h = 1 := by rw [smallDim_eq h hh1]; omega
  have hp : pixelateFromBackground (some img) scale offX offY left top w h =
      some ⟨w, h, fun x y =>
        smallPixel (regionPix img scale offX offY left top) w h
          (blockIdx w (smallDim w) x) (blockIdx h (smallDim h) y)⟩ := by
    have hne : ¬(w < 1 ∨ h < 1) := by omega
    simp [pixelateFromBackground, hne]
    omega
  refine ⟨_, hp, hdw, hdh, ?_⟩
  intro x y hx hy
  show smallPixel _ w h _ _ = smallPixel _ w h 0 0
  rw [hdw, hdh, blockIdx, blockIdx, Nat.mul_one, Nat.mul_one,
    Nat.div_eq_of_lt hx, Nat.div_eq_of_lt hy]

/-- Witness for the amended C8 at a 5 × 5 zone. -/
theorem pixelate_small_zone_single_block_witness :
    ∃ p, pixelateFromBackground (some fun _ _ => (0 : ℚ)) 1 0 0 0 0 5 5 =
        some p ∧
      smallDim 5 = 1 ∧ smallDim 5 = 1 ∧
      ∀ x y, x < 5 → y < 5 →
        p.pix x y =
          smallPixel (regionPix (fun _ _ => (0 : ℚ)) 1 0 0 0 0) 5 5 0 0 :=
  pixelate_small_zone_single_block (fun _ _ => 0) 1 0 0 0 0 5 5
    (by decide) (by decide) (by decide) (by decide)

/-!
Characterizations of the history and crop operations used by the
round-trip theorems.
-/

theorem restoreObj_plain (L : Layout) (o : FabObj) :
    restoreObj none L (plainStored o) = o := rfl

theorem croppedImg_ne (img : Img) (scale offX offY : ℚ) (r : CropRect) :
    croppedImg img scale offX offY r ≠ img := by
  intro he
  exact ImgData.cropOf_ne img.data _ _ _ _ (congrArg Img.data he)

theorem saveHistory_eq (s : EngineState) (hflag : s.isRestoring = false)
    (hidx : s.historyIndex < s.history.length) :
    saveHistory s =
      { s with
        history := s.history.take (s.historyIndex + 1) ++
          [⟨some s.canvasObjects, s.imageDataUrl⟩],
        historyIndex := s.historyIndex + 1 } := by
  simp [saveHistory, hflag, List.length_take]
  omega

theorem saveHistory_restoring (s : EngineState)
    (hflag : s.isRestoring = true) : saveHistory s = s := by
  simp [saveHistory, hflag]

theorem commitMut_eq (m : List FabObj) (s : EngineState)
    (hflag : s.isRestoring = false)
    (hidx : s.historyIndex < s.history.length) :
    commitMut m s =
      { s with
        canvasObjects := m,
        history := s.history.take (s.historyIndex + 1) ++
          [⟨some m, s.imageDataUrl⟩],
        historyIndex := s.historyIndex + 1 } := by
  simp [commitMut, saveHistory, hflag, List.length_take]
  omega

theorem handleUndo_same (s : EngineState) (objs : List FabObj)
    (h0 : 0 < s.historyIndex)
    (he : s.history.getD (s.historyIndex - 1) default =
      ⟨some objs, s.imageDataUrl⟩) :
    handleUndo s =
      { s with historyIndex := s.historyIndex - 1,
               canvasObjects := objs } := by
  simp only [List.getD_eq_getElem?_getD] at he
  simp [handleUndo, h0, he]

theorem handleRedo_same (s : EngineState) (objs : List FabObj)
    (h0 : s.historyIndex + 1 < s.history.length)
    (he : s.history.getD (s.historyIndex + 1) default =
      ⟨some objs, s.imageDataUrl⟩) :
    handleRedo s =
      { s with historyIndex := s.historyIndex + 1,
               canvasObjects := objs } := by
  have he2 : s.history[s.historyIndex + 1] = ⟨some objs, s.imageDataUrl⟩ := by
    rwa [List.getD_eq_getElem _ _ h0] at he
  simp [handleRedo, h0, he2]

theorem handleUndo_cross (s : EngineState) (objs : List FabObj) (im : Img)
    (h0 : 0 < s.historyIndex)
    (he : s.history.getD (s.historyIndex - 1) default = ⟨some objs, im⟩)
    (hne : im ≠ s.imageDataUrl) :
    handleUndo s =
      { s with
        historyIndex := s.historyIndex - 1,
        isRestoring := true,
        pendingObjects := some (objs.map plainStored),
        imageDataUrl := im } := by
  simp only [List.getD_eq_getElem?_getD] at he
  simp [handleUndo, h0, he, hne]

theorem canvasReinit_cons (cw ch : ℚ) (s : EngineState) (a : StoredObj)
    (rest : List StoredObj) (hp : s.pendingObjects = some (a :: rest)) :
    canvasReinit cw ch s =
      saveHistory
        { s with
          canvasW := (layout cw ch s.imageDataUrl).canvasW,
          canvasH := (layout cw ch s.imageDataUrl).canvasH,
          bgScale := (layout cw ch s.imageDataUrl).scale,
          bgOffsetX := (layout cw ch s.imageDataUrl).offX,
          bgOffsetY := (layout cw ch s.imageDataUrl).offY,
          canvasObjects := (a :: rest).map
            (restoreObj s.pendingCropInfo (layout cw ch s.imageDataUrl)),
          pendingObjects := none,
          pendingCropInfo := none } := by
  simp [canvasReinit, hp]

theorem canvasReinit_else (cw ch : ℚ) (s : EngineState)
    (hp : s.pendingObjects = none ∨ s.pendingObjects = some []) :
    canvasReinit cw ch s =
      if s.isRestoring then
        { s with
          canvasW := (layout cw ch s.imageDataUrl).canvasW,
          canvasH := (layout cw ch s.imageDataUrl).canvasH,
          bgScale := (layout cw ch s.imageDataUrl).scale,
          bgOffsetX := (layout cw ch s.imageDataUrl).offX,
          bgOffsetY := (layout cw ch s.imageDataUrl).offY,
          canvasObjects := [],
          isRestoring := false }
      else
        saveHistory
          { s with
            canvasW := (layout cw ch s.imageDataUrl).canvasW,
            canvasH := (layout cw ch s.imageDataUrl).canvasH,
            bgScale := (layout cw ch s.imageDataUrl).scale,
            bgOffsetX := (layout cw ch s.imageDataUrl).offX,
            bgOffsetY := (layout cw ch s.imageDataUrl).offY,
            canvasObjects := [] } := by
  rcases hp with hp | hp <;>
  · cases hfl : s.isRestoring <;> simp [canvasReinit, hp, hfl]

theorem map_restore_plain (L : Layout) (l : List FabObj) :
    (l.map plainStored).map (restoreObj none L) = l := by
  induction l with
  | nil => rfl
  | cons a t ih => simp [ih, restoreObj_plain]

theorem handleApplyCrop_eq (s : EngineState) (r : CropRect)
    (hr : s.cropRegion = some r)
    (hflag : s.isRestoring = false)
    (hw : ¬ r.width < 10) (hh : ¬ r.height < 10)
    (hidx : s.historyIndex < s.history.length) :
    handleApplyCrop s =
      { s with
        history := s.history.take (s.historyIndex + 1) ++
          [⟨some s.canvasObjects, s.imageDataUrl⟩],
        historyIndex := s.historyIndex + 1,
        pendingObjects := some
          (s.canvasObjects.map (adjustStored r s.bgScale)),
        pendingCropInfo := some (r.width, r.height),
        imageDataUrl := croppedImg s.imageDataUrl s.bgScale s.bgOffsetX
          s.bgOffsetY r,
        cropRegion := none, isCropping := false } := by
  have hnotsmall : ¬(r.width < 10 ∨ r.height < 10) := by tauto
  have hlen : (s.history.take (s.historyIndex + 1)).length
      = s.historyIndex + 1 := by
    rw [List.length_take]; omega
  simp [handleApplyCrop, hr, hnotsmall, saveHistory, hflag, croppedImg,
    hlen, adjustStored, StoredObj.mk.injEq]

theorem cropPipeline_cons_eq (cw ch : ℚ) (s : EngineState) (r : CropRect)
    (a : FabObj) (rest : List FabObj)
    (hr : s.cropRegion = some r)
    (hflag : s.isRestoring = false)
    (hw : ¬ r.width < 10) (hh : ¬ r.height < 10)
    (hidx : s.historyIndex < s.history.length)
    (hobjs : s.canvasObjects = a :: rest) :
    canvasReinit cw ch (handleApplyCrop s) =
      { s with
        canvasW := (layout cw ch (croppedImg s.imageDataUrl s.bgScale
          s.bgOffsetX s.bgOffsetY r)).canvasW,
        canvasH := (layout cw ch (croppedImg s.imageDataUrl s.bgScale
          s.bgOffsetX s.bgOffsetY r)).canvasH,
        bgScale := (layout cw ch (croppedImg s.imageDataUrl s.bgScale
          s.bgOffsetX s.bgOffsetY r)).scale,
        bgOffsetX := (layout cw ch (croppedImg s.imageDataUrl s.bgScale
          s.bgOffsetX s.bgOffsetY r)).offX,
        bgOffsetY := (layout cw ch (croppedImg s.imageDataUrl s.bgScale
          s.bgOffsetX s.bgOffsetY r)).offY,
        canvasObjects := (a :: rest).map (fun o =>
          restoreObj (some (r.width, r.height))
            (layout cw ch (croppedImg s.imageDataUrl s.bgScale
              s.bgOffsetX s.bgOffsetY r))
            (adjustStored r s.bgScale o)),
        pendingObjects := none,
        pendingCropInfo := none,
        imageDataUrl := croppedImg s.imageDataUrl s.bgScale s.bgOffsetX
          s.bgOffsetY r,
        cropRegion := none, isCropping := false,
        history := (s.history.take (s.historyIndex + 1) ++
            [⟨some s.canvasObjects, s.imageDataUrl⟩]) ++
          [⟨some ((a :: rest).map (fun o =>
              restoreObj (some (r.width, r.height))
                (layout cw ch (croppedImg s.imageDataUrl s.bgScale
                  s.bgOffsetX s.bgOffsetY r))
                (adjustStored r s.bgScale o))),
            croppedImg s.imageDataUrl s.bgScale s.bgOffsetX
              s.bgOffsetY r⟩],
        historyIndex := s.historyIndex + 2 } := by
  have hA := handleApplyCrop_eq s r hr hflag hw hh hidx
  have hlen : (s.history.take (s.historyIndex + 1)).length
      = s.historyIndex + 1 := by
    rw [List.length_take]; omega
  have hApend : (handleApplyCrop s).pendingObjects =
      some (adjustStored r s.bgScale a ::
        rest.map (adjustStored r s.bgScale)) := by
    rw [hA]
    simp [hobjs]
  have h1 := canvasReinit_cons cw ch (handleApplyCrop s) _ _ hApend
  rw [h1, saveHistory_eq]
  · rw [hA]
    simp [hobjs, List.map_map, hlen, List.take_of_length_le,
      Function.comp_def]
  · rw [hA]
    simp [hflag]
  · rw [hA]
    simp [hlen]

theorem cropPipeline_nil_eq (cw ch : ℚ) (s : EngineState) (r : CropRect)
    (hr : s.cropRegion = some r)
    (hflag : s.isRestoring = false)
    (hw : ¬ r.width < 10) (hh : ¬ r.height < 10)
    (hidx : s.historyIndex < s.history.length)
    (hobjs : s.canvasObjects = []) :
    canvasReinit cw ch (handleApplyCrop s) =
      { s with
        canvasW := (layout cw ch (croppedImg s.imageDataUrl s.bgScale
          s.bgOffsetX s.bgOffsetY r)).canvasW,
        canvasH := (layout cw ch (croppedImg s.imageDataUrl s.bgScale
          s.bgOffsetX s.bgOffsetY r)).canvasH,
        bgScale := (layout cw ch (croppedImg s.imageDataUrl s.bgScale
          s.bgOffsetX s.bgOffsetY r)).scale,
        bgOffsetX := (layout cw ch (croppedImg s.imageDataUrl s.bgScale
          s.bgOffsetX s.bgOffsetY r)).offX,
        bgOffsetY := (layout cw ch (croppedImg s.imageDataUrl s.bgScale
          s.bgOffsetX s.bgOffsetY r)).offY,
        canvasObjects := [],
        pendingObjects := some [],
        pendingCropInfo := some (r.width, r.height),
        imageDataUrl := croppedImg s.imageDataUrl s.bgScale s.bgOffsetX
          s.bgOffsetY r,
        cropRegion := none, isCropping := false,
        history := (s.history.take (s.historyIndex + 1) ++
            [⟨some s.canvasObjects, s.imageDataUrl⟩]) ++
          [⟨some [], croppedImg s.imageDataUrl s.bgScale s.bgOffsetX
              s.bgOffsetY r⟩],
        historyIndex := s.historyIndex + 2 } := by
  have hA := handleApplyCrop_eq s r hr hflag hw hh hidx
  have hlen : (s.history.take (s.historyIndex + 1)).length
      = s.historyIndex + 1 := by
    rw [List.length_take]; omega
  have hApend : (handleApplyCrop s).pendingObjects = some [] := by
    rw [hA]
    simp [hobjs]
  have h1 := canvasReinit_else cw ch (handleApplyCrop s) (Or.inr hApend)
  have hAflag : (handleApplyCrop s).isRestoring = false := by
    rw [hA]
    simp [hflag]
  rw [h1, if_neg (by rw [hAflag]; simp), saveHistory_eq]
  · rw [hA]
    simp [hlen, List.take_of_length_le, hobjs]
  · rw [hA]
    simp [hflag]
  · rw [hA]
    simp [hlen]

theorem getD_mid (l : List HistoryEntry) (pre post : HistoryEntry) (n : Nat)
    (hl : l.length = n) :
    ((l ++ [pre]) ++ [post]).getD n default = pre := by
  rw [List.getD_append _ _ _ _ (by simp [hl])]
  rw [List.getD_append_right _ _ _ _ (by omega)]
  simp [hl]

theorem runCommits_tail (muts : List (List FabObj)) :
    ∀ (s : EngineState), s.isRestoring = false →
    s.historyIndex + 1 = s.history.length →
    runCommits muts s =
      { s with
        canvasObjects := objAt s.canvasObjects muts muts.length,
        history := s.history ++
          muts.map (fun m => ⟨some m, s.imageDataUrl⟩),
        historyIndex := s.historyIndex + muts.length } := by
  induction muts with
  | nil =>
    intro s hflag hidx
    simp [runCommits, objAt]
  | cons m rest ih =>
    intro s hflag hidx
    rw [runCommits, commitMut_eq m s hflag (by omega)]
    rw [ih _ (by simp [hflag]) (by simp [List.length_take]; omega)]
    have htake : s.history.take (s.historyIndex + 1) = s.history := by
      rw [hidx]
      exact List.take_of_length_le (by omega)
    simp [htake, objAt, List.append_assoc]
    constructor
    · cases rest with
      | nil => simp [objAt, List.getD]
      | cons b bs => simp [objAt]
    · omega

theorem navState_entry (s0 : EngineState) (muts : List (List FabObj))
    (hidx : s0.historyIndex < s0.history.length)
    (hcur : s0.history.getD s0.historyIndex default =
      ⟨some s0.canvasObjects, s0.imageDataUrl⟩)
    (k : Nat) (hk : k ≤ muts.length) :
    (s0.history.take (s0.historyIndex + 1) ++
        muts.map (fun mm =>
          (⟨some mm, s0.imageDataUrl⟩ : HistoryEntry))).getD
      (s0.historyIndex + k) default
      = ⟨some (objAt s0.canvasObjects muts k), s0.imageDataUrl⟩ := by
  have h1 : (s0.history.take (s0.historyIndex + 1)).length
      = s0.historyIndex + 1 := by
    simp [List.length_take]
    omega
  cases k with
  | zero =>
    rw [List.getD_append _ _ _ _ (by rw [h1]; omega)]
    rw [show objAt s0.canvasObjects muts 0 = s0.canvasObjects from rfl]
    rw [← hcur]
    rw [List.getD_eq_getElem _ _ (by rw [h1]; omega),
      List.getD_eq_getElem _ _ hidx]
    simp [List.getElem_take]
  | succ j =>
    have hj : j < muts.length := by omega
    rw [List.getD_append_right _ _ _ _ (by rw [h1]; omega)]
    rw [h1]
    rw [show s0.historyIndex + (j + 1) - (s0.historyIndex + 1) = j by omega]
    rw [List.getD_eq_getElem _ _ (by simpa using hj), List.getElem_map]
    rw [show objAt s0.canvasObjects muts (j + 1) = muts.getD j [] from rfl]
    rw [List.getD_eq_getElem _ _ hj]

theorem navState_undo (s0 : EngineState) (muts : List (List FabObj))
    (hidx : s0.historyIndex < s0.history.length)
    (hcur : s0.history.getD s0.historyIndex default =
      ⟨some s0.canvasObjects, s0.imageDataUrl⟩)
    (k : Nat) (hk : k + 1 ≤ muts.length) :
    handleUndo (navState s0 muts (k + 1)) = navState s0 muts k := by
  rw [handleUndo_same (navState s0 muts (k + 1))
    (objAt s0.canvasObjects muts k)
    (by show 0 < s0.historyIndex + (k + 1); omega)
    (by
      have h2 := navState_entry s0 muts hidx hcur k (by omega)
      simpa [navState,
        show s0.historyIndex + (k + 1) - 1 = s0.historyIndex + k
          by omega] using h2)]
  have harith : s0.historyIndex + (k + 1) - 1 = s0.historyIndex + k := by
    omega
  simp [navState, harith]

theorem navState_redo (s0 : EngineState) (muts : List (List FabObj))
    (hidx : s0.historyIndex < s0.history.length)
    (hcur : s0.history.getD s0.historyIndex default =
      ⟨some s0.canvasObjects, s0.imageDataUrl⟩)
    (k : Nat) (hk : k + 1 ≤ muts.length) :
    handleRedo (navState s0 muts k) = navState s0 muts (k + 1) := by
  rw [handleRedo_same (navState s0 muts k)
    (objAt s0.canvasObjects muts (k + 1))
    (by simp [navState, List.length_take]; omega)
    (by
      have h2 := navState_entry s0 muts hidx hcur (k + 1) hk
      simpa [navState,
        show s0.historyIndex + k + 1 = s0.historyIndex + (k + 1)
          by omega] using h2)]
  simp [navState, Nat.add_assoc]

theorem navState_undoN (s0 : EngineState) (muts : List (List FabObj))
    (hidx : s0.historyIndex < s0.history.length)
    (hcur : s0.history.getD s0.historyIndex default =
      ⟨some s0.canvasObjects, s0.imageDataUrl⟩) :
    ∀ k, k ≤ muts.length →
      undoN k (navState s0 muts muts.length) =
        navState s0 muts (muts.length - k) := by
  intro k
  induction k with
  | zero => intro _; rfl
  | succ j ih =>
    intro hj
    rw [undoN, ih (by omega)]
    rw [show muts.length - j = (muts.length - (j + 1)) + 1 by omega]
    rw [navState_undo s0 muts hidx hcur _ (by omega)]

theorem navState_redoN (s0 : EngineState) (muts : List (List FabObj))
    (hidx : s0.historyIndex < s0.history.length)
    (hcur : s0.history.getD s0.historyIndex default =
      ⟨some s0.canvasObjects, s0.imageDataUrl⟩) :
    ∀ k, k ≤ muts.length →
      redoN k (navState s0 muts 0) = navState s0 muts k := by
  intro k
  induction k with
  | zero => intro _; rfl
  | succ j ih =>
    intro hj
    rw [redoN, ih (by omega)]
    rw [navState_redo s0 muts hidx hcur _ (by omega)]

theorem runCommits_eq_navState (s0 : EngineState)
    (muts : List (List FabObj))
    (hflag : s0.isRestoring = false)
    (hidx : s0.historyIndex < s0.history.length) :
    muts ≠ [] →
    runCommits muts s0 = navState s0 muts muts.length := by
  cases muts with
  | nil => intro h; exact absurd rfl h
  | cons m rest =>
    intro _
    rw [runCommits, commitMut_eq m s0 hflag hidx]
    rw [runCommits_tail rest _ (by simp [hflag])
      (by simp [List.length_take]; omega)]
    simp [navState, List.append_assoc, List.length_take]
    constructor
    · cases rest with
      | nil => simp [objAt, List.getD]
      | cons b bs => simp [objAt]
    · omega

/-- C1: committing any sequence of N mutations on the same background
raster and then performing undo N times followed by redo N times
reproduces the identical final engine state — in particular the same
annotation object list field-for-field and the same active background
raster — because history entries are immutable snapshots navigated by the
cursor.  The hypotheses say the start state is not mid-restore, its cursor
is in range, and the cursor entry matches the rendered scene. -/
theorem undo_redo_roundtrip (s0 : EngineState) (muts : List (List FabObj))
    (hflag : s0.isRestoring = false)
    (hidx : s0.historyIndex < s0.history.length)
    (hcur : s0.history.getD s0.historyIndex default =
      ⟨some s0.canvasObjects, s0.imageDataUrl⟩) :
    redoN muts.length (undoN muts.length (runCommits muts s0)) =
      runCommits muts s0 := by
  cases hm : muts with
  | nil => rfl
  | cons m rest =>
    rw [runCommits_eq_navState s0 (m :: rest) hflag hidx (by simp)]
    rw [navState_undoN s0 (m :: rest) hidx hcur (m :: rest).length
      (le_refl _)]
    rw [Nat.sub_self]
    rw [navState_redoN s0 (m :: rest) hidx hcur (m :: rest).length
      (le_refl _)]

/-- Witness for C1: one committed mutation, one undo, one redo. -/
theorem undo_redo_roundtrip_witness :
    redoN 1 (undoN 1 (runCommits [[o1]] s0)) = runCommits [[o1]] s0 :=
  undo_redo_roundtrip s0 [[o1]] rfl (by decide) (by decide)

/-- C2: applying a valid crop records, immediately before the scene is
mutated, a history entry holding the pre-crop raster together with the
pre-crop object list, and a single undo after the crop (with its canvas
reinitialization) restores both the exact pre-crop background raster and
the exact pre-crop geometry of every annotation object together. -/
theorem crop_single_undo_restores_both (cw ch : ℚ) (s : EngineState)
    (r : CropRect)
    (hr : s.cropRegion = some r)
    (hflag : s.isRestoring = false)
    (hw : ¬ r.width < 10) (hh : ¬ r.height < 10)
    (hidx : s.historyIndex < s.history.length) :
    ((canvasReinit cw ch (handleApplyCrop s)).history.getD
        (s.historyIndex + 1) default
      = ⟨some s.canvasObjects, s.imageDataUrl⟩) ∧
    (canvasReinit cw ch
        (handleUndo (canvasReinit cw ch (handleApplyCrop s)))).imageDataUrl
      = s.imageDataUrl ∧
    (canvasReinit cw ch
        (handleUndo (canvasReinit cw ch (handleApplyCrop s)))).canvasObjects
      = s.canvasObjects := by
  have hlen : (s.history.take (s.historyIndex + 1)).length
      = s.historyIndex + 1 := by
    rw [List.length_take]; omega
  have hcne : s.imageDataUrl ≠ croppedImg s.imageDataUrl s.bgScale
      s.bgOffsetX s.bgOffsetY r :=
    fun he => croppedImg_ne s.imageDataUrl s.bgScale s.bgOffsetX
      s.bgOffsetY r he.symm
  cases hobjs : s.canvasObjects with
  | nil =>
    have hB := cropPipeline_nil_eq cw ch s r hr hflag hw hh hidx hobjs
    have ha : (canvasReinit cw ch (handleApplyCrop s)).history.getD
        (s.historyIndex + 1) default
        = ⟨some s.canvasObjects, s.imageDataUrl⟩ := by
      rw [hB]
      exact getD_mid _ _ _ _ hlen
    rw [hobjs] at ha
    refine ⟨ha, ?_⟩
    rw [← hobjs] at ha
    have hC := handleUndo_cross (canvasReinit cw ch (handleApplyCrop s))
      s.canvasObjects s.imageDataUrl
      (by rw [hB]; simp)
      (by rw [hB] at ha ⊢; simpa using ha)
      (by rw [hB]; simpa using hcne)
    rw [hC]
    have hCpend : ({ canvasReinit cw ch (handleApplyCrop s) with
        historyIndex := (canvasReinit cw ch
          (handleApplyCrop s)).historyIndex - 1,
        isRestoring := true,
        pendingObjects := some (s.canvasObjects.map plainStored),
        imageDataUrl := s.imageDataUrl } : EngineState).pendingObjects
        = some [] := by
      simp [hobjs]
    rw [canvasReinit_else cw ch _ (Or.inr hCpend), if_pos (by simp)]
    simp [hobjs]
  | cons a rest =>
    have hB := cropPipeline_cons_eq cw ch s r a rest hr hflag hw hh hidx
      hobjs
    have ha : (canvasReinit cw ch (handleApplyCrop s)).history.getD
        (s.historyIndex + 1) default
        = ⟨some s.canvasObjects, s.imageDataUrl⟩ := by
      rw [hB]
      exact getD_mid _ _ _ _ hlen
    rw [hobjs] at ha
    refine ⟨ha, ?_⟩
    rw [← hobjs] at ha
    have hC := handleUndo_cross (canvasReinit cw ch (handleApplyCrop s))
      s.canvasObjects s.imageDataUrl
      (by rw [hB]; simp)
      (by rw [hB] at ha ⊢; simpa using ha)
      (by rw [hB]; simpa using hcne)
    rw [hC]
    have hCpend : ({ canvasReinit cw ch (handleApplyCrop s) with
        historyIndex := (canvasReinit cw ch
          (handleApplyCrop s)).historyIndex - 1,
        isRestoring := true,
        pendingObjects := some (s.canvasObjects.map plainStored),
        imageDataUrl := s.imageDataUrl } : EngineState).pendingObjects
        = some (plainStored a :: rest.map plainStored) := by
      simp [hobjs]
    rw [canvasReinit_cons cw ch _ _ _ hCpend]
    rw [saveHistory_restoring _ (by simp)]
    have hCcrop : ({ canvasReinit cw ch (handleApplyCrop s) with
        historyIndex := (canvasReinit cw ch
          (handleApplyCrop s)).historyIndex - 1,
        isRestoring := true,
        pendingObjects := some (s.canvasObjects.map plainStored),
        imageDataUrl := s.imageDataUrl } : EngineState).pendingCropInfo
        = none := by
      rw [hB]
    constructor
    · simp
    · show (plainStored a :: rest.map plainStored).map _ = _
      rw [hCcrop]
      have := map_restore_plain (layout cw ch s.imageDataUrl) (a :: rest)
      simpa [hobjs] using this

/-- Witness for C2 at the concrete crop of sCrop0 in an 800 × 600
container. -/
theorem crop_single_undo_restores_both_witness :
    ((canvasReinit 800 600 (handleApplyCrop sCrop0)).history.getD
        (sCrop0.historyIndex + 1) default
      = ⟨some sCrop0.canvasObjects, sCrop0.imageDataUrl⟩) ∧
    (canvasReinit 800 600
        (handleUndo (canvasReinit 800 600
          (handleApplyCrop sCrop0)))).imageDataUrl
      = sCrop0.imageDataUrl ∧
    (canvasReinit 800 600
        (handleUndo (canvasReinit 800 600
          (handleApplyCrop sCrop0)))).canvasObjects
      = sCrop0.canvasObjects :=
  crop_single_undo_restores_both 800 600 sCrop0 rect1 rfl rfl
    (by decide) (by decide) (by decide)

/-- C3: every object present at a valid crop — also one lying outside the
crop region; none is clipped or deleted, the list keeps its length — is
stored at the fraction (position − origin) / extent of the crop region and
re-placed, once the new raster has its display scale, at that same
fraction of the new background extent, with its scale attributes
multiplied by the ratio of the new display scale to the old one; the
fractional position is preserved exactly in rational arithmetic. -/
theorem crop_fractional_remap (cw ch : ℚ) (s : EngineState) (r : CropRect)
    (i : Nat)
    (hr : s.cropRegion = some r)
    (hflag : s.isRestoring = false)
    (hw : ¬ r.width < 10) (hh : ¬ r.height < 10)
    (hidx : s.historyIndex < s.history.length)
    (hscale : s.bgScale ≠ 0)
    (hi : i < s.canvasObjects.length)
    (hbgW : (canvasReinit cw ch (handleApplyCrop s)).canvasW -
        (canvasReinit cw ch (handleApplyCrop s)).bgOffsetX * 2 ≠ 0)
    (hbgH : (canvasReinit cw ch (handleApplyCrop s)).canvasH -
        (canvasReinit cw ch (handleApplyCrop s)).bgOffsetY * 2 ≠ 0) :
    (canvasReinit cw ch (handleApplyCrop s)).canvasObjects.length
      = s.canvasObjects.length ∧
    (((canvasReinit cw ch (handleApplyCrop s)).canvasObjects.getD i
          default).left
        - (canvasReinit cw ch (handleApplyCrop s)).bgOffsetX)
      / ((canvasReinit cw ch (handleApplyCrop s)).canvasW -
          (canvasReinit cw ch (handleApplyCrop s)).bgOffsetX * 2)
      = ((s.canvasObjects.getD i default).left - r.x) / r.width ∧
    (((canvasReinit cw ch (handleApplyCrop s)).canvasObjects.getD i
          default).top
        - (canvasReinit cw ch (handleApplyCrop s)).bgOffsetY)
      / ((canvasReinit cw ch (handleApplyCrop s)).canvasH -
          (canvasReinit cw ch (handleApplyCrop s)).bgOffsetY * 2)
      = ((s.canvasObjects.getD i default).top - r.y) / r.height ∧
    ((canvasReinit cw ch (handleApplyCrop s)).canvasObjects.getD i
        default).scaleX
      = (s.canvasObjects.getD i default).scaleX *
        ((canvasReinit cw ch (handleApplyCrop s)).bgScale / s.bgScale) ∧
    ((canvasReinit cw ch (handleApplyCrop s)).canvasObjects.getD i
        default).scaleY
      = (s.canvasObjects.getD i default).scaleY *
        ((canvasReinit cw ch (handleApplyCrop s)).bgScale / s.bgScale) := by
  cases hobjs : s.canvasObjects with
  | nil =>
    rw [hobjs] at hi
    exact absurd hi (by simp)
  | cons a rest =>
    rw [hobjs] at hi
    have hB := cropPipeline_cons_eq cw ch s r a rest hr hflag hw hh hidx
      hobjs
    rw [hB] at hbgW hbgH ⊢
    simp only at hbgW hbgH ⊢
    have hmapD : ∀ g : FabObj → FabObj,
        ((a :: rest).map g).getD i default =
          g ((a :: rest).getD i default) := by
      intro g
      rw [List.getD_eq_getElem _ _ (by simpa using hi),
        List.getD_eq_getElem _ _ hi, List.getElem_map]
    rw [hmapD]
    simp only [restoreObj, adjustStored]
    rw [if_pos hscale]
    refine ⟨by simp, ?_, ?_, by simp, by simp⟩
    · rw [add_sub_cancel_right]
      exact mul_div_cancel_right₀ _ hbgW
    · rw [add_sub_cancel_right]
      exact mul_div_cancel_right₀ _ hbgH

/-- Witness for C3 at the concrete crop of sCrop0: object o1 at (150,150)
inside the (50,50)+100 × 100 region keeps fraction (1, 1). -/
theorem crop_fractional_remap_witness :
    (canvasReinit 800 600 (handleApplyCrop sCrop0)).canvasObjects.length
      = sCrop0.canvasObjects.length ∧
    (((canvasReinit 800 600 (handleApplyCrop sCrop0)).canvasObjects.getD 0
          default).left
        - (canvasReinit 800 600 (handleApplyCrop sCrop0)).bgOffsetX)
      / ((canvasReinit 800 600 (handleApplyCrop sCrop0)).canvasW -
          (canvasReinit 800 600 (handleApplyCrop sCrop0)).bgOffsetX * 2)
      = ((sCrop0.canvasObjects.getD 0 default).left - rect1.x)
        / rect1.width ∧
    (((canvasReinit 800 600 (handleApplyCrop sCrop0)).canvasObjects.getD 0
          default).top
        - (canvasReinit 800 600 (handleApplyCrop sCrop0)).bgOffsetY)
      / ((canvasReinit 800 600 (handleApplyCrop sCrop0)).canvasH -
          (canvasReinit 800 600 (handleApplyCrop sCrop0)).bgOffsetY * 2)
      = ((sCrop0.canvasObjects.getD 0 default).top - rect1.y)
        / rect1.height ∧
    ((canvasReinit 800 600 (handleApplyCrop sCrop0)).canvasObjects.getD 0
        default).scaleX
      = (sCrop0.canvasObjects.getD 0 default).scaleX *
        ((canvasReinit 800 600 (handleApplyCrop sCrop0)).bgScale /
          sCrop0.bgScale) ∧
    ((canvasReinit 800 600 (handleApplyCrop sCrop0)).canvasObjects.getD 0
        default).scaleY
      = (sCrop0.canvasObjects.getD 0 default).scaleY *
        ((canvasReinit 800 600 (handleApplyCrop sCrop0)).bgScale /
          sCrop0.bgScale) :=
  crop_fractional_remap 800 600 sCrop0 rect1 0 rfl rfl (by decide)
    (by decide) (by decide) (by decide) (by decide)
    (by
      rw [cropPipeline_cons_eq 800 600 sCrop0 rect1 o1 [] rfl rfl
        (by decide) (by decide) (by decide) rfl]
      norm_num [layout, croppedImg, sCrop0, s0, rect1, img0])
    (by
      rw [cropPipeline_cons_eq 800 600 sCrop0 rect1 o1 [] rfl rfl
        (by decide) (by decide) (by decide) rfl]
      norm_num [layout, croppedImg, sCrop0, s0, rect1, img0])

end PopShot
